import Mathlib

/-!
Verification of the streaming/transport core of the remote-desktop program
(`raw_transport.py`, `raw_protocols.py`, `controllee.py`, `controller.py`,
`pyqt5_controller.py`), as a shallow embedding.

Bytes are modelled as natural numbers (< 256 where the program produces
them); byte strings as `List Nat`; Python floats (`time.time()` values,
fps, scale) as rationals.
-/

namespace RemoteDesktop

/-- Little-endian encoding of `n` into `k` bytes, as produced by
`struct.pack` with formats `<Q` (k = 8) and `<I` (k = 4). -/
def toLE : Nat → Nat → List Nat
  | 0, _ => []
  | k + 1, n => n % 256 :: toLE k (n / 256)

/-- Little-endian decoding of a byte string, as done by `struct.unpack`. -/
def fromLE (bs : List Nat) : Nat := bs.foldr (fun b acc => b + 256 * acc) 0

theorem toLE_length (k n : Nat) : (toLE k n).length = k := by
  induction k generalizing n with
  | zero => rfl
  | succ k ih => simp [toLE, ih]

theorem fromLE_toLE (k n : Nat) : fromLE (toLE k n) = n % 256 ^ k := by
  induction k generalizing n with
  | zero => simp [toLE, fromLE, Nat.mod_one]
  | succ k ih =>
    have h : (256 : Nat) ^ (k + 1) = 256 * 256 ^ k := by ring
    simp only [toLE, fromLE, List.foldr_cons]
    have : fromLE (toLE k (n / 256)) = n / 256 % 256 ^ k := ih (n / 256)
    simp only [fromLE] at this
    rw [this, h, Nat.mod_mul]

/-- `RawSocketProtocol._send_worker` (raw_transport.py, TCP branch): a
payload is framed as an 8-byte little-endian length followed by the
payload bytes. -/
def encodeMsg (p : List Nat) : List Nat := toLE 8 p.length ++ p

/-- `RawSocketProtocol._process_messages` (raw_transport.py): repeatedly
strip a complete `8-byte header + payload` from the front of the receive
buffer, delivering each payload to the message handler; stop when the
buffer holds less than a header or less than the announced payload.
Returns the delivered payloads in order and the remaining buffer. -/
def processMessages (b : List Nat) : List (List Nat) × List Nat :=
  if h8 : 8 ≤ b.length then
    let messageLength := fromLE (b.take 8)
    if hm : 8 + messageLength ≤ b.length then
      let r := processMessages (b.drop (8 + messageLength))
      ((b.drop 8).take messageLength :: r.1, r.2)
    else ([], b)
  else ([], b)
termination_by b.length
decreasing_by simp only [List.length_drop]; omega

theorem processMessages_short (b : List Nat) (h : b.length < 8) :
    processMessages b = ([], b) := by
  rw [processMessages]
  simp [Nat.not_le.mpr h]

theorem processMessages_incomplete (b : List Nat) (h8 : 8 ≤ b.length)
    (h : b.length < 8 + fromLE (b.take 8)) :
    processMessages b = ([], b) := by
  rw [processMessages]
  simp [h8, Nat.not_le.mpr h]

theorem processMessages_step (b : List Nat) (h8 : 8 ≤ b.length)
    (h : 8 + fromLE (b.take 8) ≤ b.length) :
    processMessages b =
      ((b.drop 8).take (fromLE (b.take 8)) ::
        (processMessages (b.drop (8 + fromLE (b.take 8)))).1,
       (processMessages (b.drop (8 + fromLE (b.take 8)))).2) := by
  rw [processMessages]
  simp [h8, h]

theorem processMessages_append (b c : List Nat) :
    processMessages (b ++ c) =
      ((processMessages b).1 ++ (processMessages ((processMessages b).2 ++ c)).1,
       (processMessages ((processMessages b).2 ++ c)).2) := by
  induction b using processMessages.induct with
  | case1 b h8 messageLength hm ih =>
    have hL : messageLength = fromLE (b.take 8) := rfl
    rw [hL] at hm ih
    have hstep := processMessages_step b h8 hm
    have htake : (b ++ c).take 8 = b.take 8 := List.take_append_of_le_length h8
    have hdrop8 : (b ++ c).drop 8 = b.drop 8 ++ c := List.drop_append_of_le_length h8
    have hdropm : (b ++ c).drop (8 + fromLE (b.take 8)) = b.drop (8 + fromLE (b.take 8)) ++ c :=
      List.drop_append_of_le_length hm
    have hmsg : (b.drop 8 ++ c).take (fromLE (b.take 8)) = (b.drop 8).take (fromLE (b.take 8)) := by
      apply List.take_append_of_le_length
      simp only [List.length_drop]
      omega
    have hstep2 := processMessages_step (b ++ c)
      (by simp only [List.length_append]; omega)
      (by simp only [List.length_append, htake]; omega)
    rw [htake] at hstep2
    rw [hstep, hstep2, hdrop8, hdropm, hmsg, ih]
    simp
  | case2 b h8 hm =>
    have hL : processMessages b = ([], b) := processMessages_incomplete b h8 (by omega)
    rw [hL]
    simp
  | case3 b h8 =>
    have hL : processMessages b = ([], b) := processMessages_short b (by omega)
    rw [hL]
    simp

theorem processMessages_encode (p rest : List Nat) (hp : p.length < 2 ^ 64) :
    processMessages (encodeMsg p ++ rest) = (p :: (processMessages rest).1, (processMessages rest).2) := by
  have hlen8 : (toLE 8 p.length).length = 8 := toLE_length 8 p.length
  have htake : (encodeMsg p ++ rest).take 8 = toLE 8 p.length := by
    rw [encodeMsg, List.append_assoc]
    exact List.take_left' hlen8
  have hfrom : fromLE ((encodeMsg p ++ rest).take 8) = p.length := by
    have h64 : (256 : Nat) ^ 8 = 2 ^ 64 := by norm_num
    rw [htake, fromLE_toLE, h64, Nat.mod_eq_of_lt hp]
  have hlentot : (encodeMsg p ++ rest).length = 8 + p.length + rest.length := by
    simp [encodeMsg, hlen8]
    omega
  have hstep := processMessages_step (encodeMsg p ++ rest) (by omega) (by rw [hfrom]; omega)
  rw [hfrom] at hstep
  have hdrop8 : (encodeMsg p ++ rest).drop 8 = p ++ rest := by
    rw [encodeMsg, List.append_assoc]
    exact List.drop_left' hlen8
  have hmsg : ((encodeMsg p ++ rest).drop 8).take p.length = p := by
    rw [hdrop8]
    exact List.take_left' rfl
  have hdroprest : (encodeMsg p ++ rest).drop (8 + p.length) = rest := by
    have : encodeMsg p ++ rest = (toLE 8 p.length ++ p) ++ rest := rfl
    rw [this]
    apply List.drop_left'
    simp [hlen8]
  rw [hstep, hmsg, hdroprest]

theorem processMessages_stream (ps : List (List Nat)) (h : ∀ p ∈ ps, p.length < 2 ^ 64) :
    processMessages (List.flatten (ps.map encodeMsg)) = (ps, []) := by
  induction ps with
  | nil => exact processMessages_short [] (by simp)
  | cons p rest ih =>
    have hp : p.length < 2 ^ 64 := h p (List.mem_cons_self p rest)
    have hrest : ∀ q ∈ rest, q.length < 2 ^ 64 := fun q hq => h q (List.mem_cons_of_mem p hq)
    simp only [List.map_cons, List.flatten_cons]
    rw [processMessages_encode p _ hp, ih hrest]

theorem processMessages_residual (b : List Nat) :
    processMessages (processMessages b).2 = ([], (processMessages b).2) := by
  induction b using processMessages.induct with
  | case1 b h8 messageLength hm ih =>
    have hL : messageLength = fromLE (b.take 8) := rfl
    rw [hL] at hm ih
    rw [processMessages_step b h8 hm]
    exact ih
  | case2 b h8 hm =>
    rw [processMessages_incomplete b h8 (by omega)]
    exact processMessages_incomplete b h8 (by omega)
  | case3 b h8 =>
    rw [processMessages_short b (by omega)]
    exact processMessages_short b (by omega)

/-- `RawSocketProtocol._receive_worker` (raw_transport.py): each received
chunk is appended to the receive buffer and `_process_messages` is run;
this folds that loop over a list of chunks, collecting the payloads
delivered to the message handler. -/
def feedChunks (chunks : List (List Nat)) : List (List Nat) × List Nat :=
  chunks.foldl
    (fun st chunk =>
      let r := processMessages (st.2 ++ chunk)
      (st.1 ++ r.1, r.2))
    ([], [])

theorem feedChunks_eq_aux (chunks : List (List Nat)) (acc : List (List Nat)) (buf : List Nat)
    (hbuf : processMessages buf = ([], buf)) :
    chunks.foldl
      (fun st chunk =>
        let r := processMessages (st.2 ++ chunk)
        (st.1 ++ r.1, r.2))
      (acc, buf) =
    (acc ++ (processMessages (buf ++ List.flatten chunks)).1,
     (processMessages (buf ++ List.flatten chunks)).2) := by
  induction chunks generalizing acc buf with
  | nil =>
    simp [hbuf]
  | cons chunk rest ih =>
    simp only [List.foldl_cons, List.flatten_cons]
    rw [ih (acc ++ (processMessages (buf ++ chunk)).1) (processMessages (buf ++ chunk)).2
      (processMessages_residual (buf ++ chunk))]
    have hap : processMessages ((buf ++ chunk) ++ List.flatten rest) =
        ((processMessages (buf ++ chunk)).1 ++
          (processMessages ((processMessages (buf ++ chunk)).2 ++ List.flatten rest)).1,
         (processMessages ((processMessages (buf ++ chunk)).2 ++ List.flatten rest)).2) :=
      processMessages_append (buf ++ chunk) (List.flatten rest)
    rw [← List.append_assoc, hap]
    simp

theorem feedChunks_eq (chunks : List (List Nat)) :
    feedChunks chunks = processMessages (List.flatten chunks) := by
  have h := feedChunks_eq_aux chunks [] [] (processMessages_short [] (by simp))
  rw [feedChunks, h]
  simp

/-- C5: for any finite sequence of payloads p₁…pₙ framed by
`RawSocketProtocol._send_worker` (8-byte little-endian length followed by
the payload bytes) and any splitting of the resulting byte stream into
receive chunks, folding `_process_messages` over the chunks delivers
exactly p₁…pₙ in order — never splitting or merging messages — and leaves
an empty buffer, for all payload sizes 0 ≤ |pᵢ| ≤ 16 MiB. -/
theorem C5_framing_roundtrip (ps chunks : List (List Nat))
    (hsize : ∀ p ∈ ps, p.length ≤ 16 * 2 ^ 20)
    (hsplit : List.flatten chunks = List.flatten (ps.map encodeMsg)) :
    feedChunks chunks = (ps, []) := by
  rw [feedChunks_eq, hsplit, processMessages_stream]
  intro p hp
  have h1 := hsize p hp
  have h2 : (16 * 2 ^ 20 : Nat) < 2 ^ 64 := by norm_num
  omega

/-- Witness for C5 at a concrete three-payload stream (one of them empty)
split into chunks that cut across both headers and bodies. -/
theorem C5_framing_roundtrip_witness :
    (∀ p ∈ [[1, 2, 3], [], [255]], List.length p ≤ 16 * 2 ^ 20) ∧
    feedChunks [[3, 0], [0, 0, 0, 0, 0, 0, 1, 2], [3, 0, 0, 0, 0, 0, 0, 0, 0],
      [1, 0, 0, 0, 0, 0, 0, 0, 255]] = ([[1, 2, 3], [], [255]], []) :=
  ⟨by decide,
   C5_framing_roundtrip [[1, 2, 3], [], [255]]
     [[3, 0], [0, 0, 0, 0, 0, 0, 1, 2], [3, 0, 0, 0, 0, 0, 0, 0, 0],
      [1, 0, 0, 0, 0, 0, 0, 0, 255]]
     (by decide) (by decide)⟩

/-- C10 counterexample: a zero length prefix is not treated as a fatal
framing error by `RawSocketProtocol._process_messages`; the empty message
is delivered to the handler and decoding continues (the code has no
zero-length or sanity-limit check at all). -/
theorem C10_framing_error_counterexample :
    processMessages (toLE 8 0) = ([[]], []) := by
  have h1 : (toLE 8 0).length = 8 := toLE_length 8 0
  have h2 : fromLE ((toLE 8 0).take 8) = 0 := by
    rw [List.take_of_length_le (le_of_eq h1), fromLE_toLE, Nat.zero_mod]
  have hstep := processMessages_step (toLE 8 0) (by omega) (by rw [h2]; omega)
  rw [h2] at hstep
  rw [hstep]
  have hdrop : (toLE 8 0).drop 8 = [] := List.drop_of_length_le (le_of_eq h1)
  have hempty : processMessages ([] : List Nat) = ([], []) :=
    processMessages_short [] (by simp)
  simp [hdrop, hempty]

/-- C10 amended: the transport has no framing-error handling. A zero
length prefix is decoded as an empty message, delivered to the handler,
and decoding continues with the rest of the buffer; a length that exceeds
the available data (however large) is not rejected either — the decoder
simply keeps the buffer and waits for more bytes. No length value
terminates the connection. -/
theorem C10_framing_error_amended :
    (∀ rest : List Nat,
      processMessages (toLE 8 0 ++ rest) =
        ([] :: (processMessages rest).1, (processMessages rest).2)) ∧
    (∀ (n : Nat) (buf : List Nat), n < 2 ^ 64 → buf.length < n →
      processMessages (toLE 8 n ++ buf) = ([], toLE 8 n ++ buf)) := by
  have h64 : (256 : Nat) ^ 8 = 2 ^ 64 := by norm_num
  constructor
  · intro rest
    have h := processMessages_encode [] rest (by norm_num)
    simpa [encodeMsg] using h
  · intro n buf hn hbuf
    have hlen8 : (toLE 8 n).length = 8 := toLE_length 8 n
    have htake : (toLE 8 n ++ buf).take 8 = toLE 8 n := List.take_left' hlen8
    have hfrom : fromLE ((toLE 8 n ++ buf).take 8) = n := by
      rw [htake, fromLE_toLE, h64, Nat.mod_eq_of_lt hn]
    apply processMessages_incomplete
    · simp [hlen8]
    · rw [hfrom]
      simp [hlen8]
      omega

/-- Witness for C10's amended statement: a zero-length frame followed by a
complete one-byte frame delivers the empty message and then the one-byte
message; a header announcing 100 bytes with nothing behind it leaves the
buffer untouched. -/
theorem C10_framing_error_amended_witness :
    processMessages (toLE 8 0 ++ (toLE 8 1 ++ [7])) = ([[], [7]], []) ∧
    (100 : Nat) < 2 ^ 64 ∧ ([] : List Nat).length < 100 ∧
    processMessages (toLE 8 100 ++ []) = ([], toLE 8 100 ++ []) := by
  refine ⟨?_, by norm_num, by simp, C10_framing_error_amended.2 100 [] (by norm_num) (by simp)⟩
  have h := C10_framing_error_amended.1 (toLE 8 1 ++ [7])
  have h2 : processMessages (toLE 8 1 ++ [7]) = ([[7]], []) := by
    have he := processMessages_encode [7] [] (by norm_num)
    have hshort := processMessages_short [] (by simp)
    simpa [encodeMsg, hshort] using he
  rw [h, h2]

/-! Configuration constants.

`constants.py` is imported by the sources but is not under src/; the key
names and default values below are modelled from the spec (§3,
configuration table). Python ints, floats and bools are all modelled as
rationals (bools as 0/1, which matches Python's bool-as-int arithmetic). -/

/-- Modelled from the spec: configuration key for the capture monitor
(`constants.py` is missing from src/). -/
def VAR_MONITOR : String := "monitor"

/-- Modelled from the spec: configuration key for the downscale factor. -/
def VAR_SCALE : String := "scale"

/-- Modelled from the spec: configuration key for the target capture fps. -/
def VAR_FPS : String := "fps"

/-- Modelled from the spec: configuration key for the base encoder quality. -/
def VAR_JPEG_QUALITY : String := "jpeg_quality"

/-- Modelled from the spec: configuration key for the deflate level. -/
def VAR_COMPRESSION_LEVEL : String := "compression_level"

/-- Modelled from the spec: configuration key selecting raw-pixel mode. -/
def VAR_USE_NUMPY : String := "use_numpy"

/-- Modelled from the spec: configuration key gating input injection. -/
def VAR_SHOULD_UPDATE_COMMANDS : String := "should_update_commands"

/-- Modelled from the spec: default monitor index 0. -/
def VAR_MONITOR_DEFAULT : ℚ := 0

/-- Modelled from the spec: default scale 1.0. -/
def VAR_SCALE_DEFAULT : ℚ := 1

/-- Modelled from the spec: default target fps 120. -/
def VAR_FPS_DEFAULT : ℚ := 120

/-- Modelled from the spec: default base quality 50. -/
def VAR_JPEG_QUALITY_DEFAULT : ℚ := 50

/-- Modelled from the spec: default deflate level 1. -/
def VAR_COMPRESSION_LEVEL_DEFAULT : ℚ := 1

/-- Modelled from the spec: raw-pixel mode off by default. -/
def VAR_USE_NUMPY_DEFAULT : ℚ := 0

/-- Modelled from the spec: input injection on by default. -/
def VAR_SHOULD_UPDATE_COMMANDS_DEFAULT : ℚ := 1

/-- State of a `RawControlleeProtocol` object (raw_protocols.py), as far
as the tiled/raw encoding paths read it. The four tile-state attributes
are `Option`s because `__init__` may or may not assign them; reading a
`none` field models Python's `AttributeError`. `network_stats` is split
into its two used entries. -/
structure ControlleeState where
  config : String → Option ℚ
  screenshot_interval : ℚ
  tile_size : Option ℕ
  last_tiles : Option ((ℕ × ℕ) → Option ℤ)
  tile_timestamps : Option ((ℕ × ℕ) → Option ℚ)
  static_tile_threshold : Option ℚ
  current_quality_offset : ℤ
  fps_history : List ℚ

/-- `RawControlleeProtocol.set_variable` (raw_protocols.py lines 291-300):
store the value under the key; if the key is the fps key and the value is
positive, also set the screenshot interval to `1/value`. (The
`should_print` parameter only controls logging and carries no state.)
`ControlleeProtocol.setVariable` (controllee.py lines 50-56) is
line-for-line identical. -/
def set_variable (st : ControlleeState) (k : String) (v : ℚ) : ControlleeState :=
  let st1 := { st with config := fun k2 => if k2 = k then some v else st.config k2 }
  if k = VAR_FPS ∧ v > 0 then { st1 with screenshot_interval := 1 / v } else st1

/-- State of a fresh `RawControlleeProtocol` after `__init__`
(raw_protocols.py lines 27-58): the config is populated through
`set_variable` in source order; the tile-state attributes `tile_size`,
`last_tiles`, `tile_timestamps` and `static_tile_threshold` are never
assigned anywhere in `__init__` (or in `RawSocketProtocol.__init__`), so
they are `none`. -/
def rawControlleeInit : ControlleeState :=
  let st0 : ControlleeState := {
    config := fun _ => none
    screenshot_interval := 1 / VAR_FPS_DEFAULT
    tile_size := none
    last_tiles := none
    tile_timestamps := none
    static_tile_threshold := none
    current_quality_offset := 0
    fps_history := [] }
  let st1 := set_variable st0 VAR_SCALE VAR_SCALE_DEFAULT
  let st2 := set_variable st1 VAR_MONITOR VAR_MONITOR_DEFAULT
  let st3 := set_variable st2 VAR_SHOULD_UPDATE_COMMANDS VAR_SHOULD_UPDATE_COMMANDS_DEFAULT
  let st4 := set_variable st3 VAR_FPS VAR_FPS_DEFAULT
  let st5 := set_variable st4 VAR_JPEG_QUALITY VAR_JPEG_QUALITY_DEFAULT
  let st6 := set_variable st5 VAR_USE_NUMPY VAR_USE_NUMPY_DEFAULT
  set_variable st6 VAR_COMPRESSION_LEVEL VAR_COMPRESSION_LEVEL_DEFAULT

/-- C9: `set_variable` stores the value under the key; exactly when the
key is the fps key and the value is positive it also sets the capture
interval to `1/value`; every other key (including unrecognized ones) is
accepted with no effect beyond the stored entry — in particular all other
config entries and the whole tile/feedback state are untouched — and
repeating the same write leaves the state unchanged (idempotence). -/
theorem set_variable_eq (st : ControlleeState) (k : String) (v : ℚ) :
    set_variable st k v =
      { st with
        config := fun k2 => if k2 = k then some v else st.config k2
        screenshot_interval :=
          if k = VAR_FPS ∧ v > 0 then 1 / v else st.screenshot_interval } := by
  unfold set_variable
  by_cases hf : k = VAR_FPS ∧ v > 0 <;> simp [hf]

theorem C9_set_variable_effect (st : ControlleeState) (k : String) (v : ℚ) :
    (set_variable st k v).config k = some v ∧
    (∀ k2, (set_variable st k v).config k2 =
      (if k2 = k then some v else st.config k2)) ∧
    (set_variable st k v).screenshot_interval =
      (if k = VAR_FPS ∧ v > 0 then 1 / v else st.screenshot_interval) ∧
    (set_variable st k v).tile_size = st.tile_size ∧
    (set_variable st k v).last_tiles = st.last_tiles ∧
    (set_variable st k v).tile_timestamps = st.tile_timestamps ∧
    (set_variable st k v).static_tile_threshold = st.static_tile_threshold ∧
    (set_variable st k v).current_quality_offset = st.current_quality_offset ∧
    (set_variable st k v).fps_history = st.fps_history ∧
    set_variable (set_variable st k v) k v = set_variable st k v := by
  refine ⟨by rw [set_variable_eq]; simp,
    fun k2 => by rw [set_variable_eq],
    by rw [set_variable_eq],
    by rw [set_variable_eq], by rw [set_variable_eq], by rw [set_variable_eq],
    by rw [set_variable_eq], by rw [set_variable_eq], by rw [set_variable_eq], ?_⟩
  simp only [set_variable_eq]
  simp only [ControlleeState.mk.injEq]
  constructor
  · funext k2
    by_cases hk2 : k2 = k <;> simp [hk2]
  · by_cases hf : k = VAR_FPS ∧ v > 0 <;> simp [hf]

/-- Reading a Python instance attribute that may not have been assigned:
`some` is a normal read, `none` raises `AttributeError` (modelled as
`Except.error` carrying the attribute name). -/
def require (o : Option α) (attr : String) : Except String α :=
  match o with
  | some a => .ok a
  | none => .error attr

/-- A captured (post-scale) frame: extent plus an abstract pixel content
function. Tile contents only flow into the fingerprint hash and the
codec, so one value per coordinate suffices. -/
structure Frame where
  width : ℕ
  height : ℕ
  pix : ℕ → ℕ → ℕ

/-- Bytes of the crop `img.crop((x, y, x+w, y+h))` in row-major order
(`tile.tobytes()`). -/
def tileBytes (f : Frame) (x y w h : ℕ) : List ℕ :=
  ((List.range h).map (fun dy => (List.range w).map (fun dx => f.pix (x + dx) (y + dy)))).flatten

/-- The offsets produced by Python's `range(0, limit, T)` for `T > 0`. -/
def gridOffsets (limit T : ℕ) : List ℕ :=
  (List.range ((limit + T - 1) / T)).map (· * T)

/-- One entry of the `changed_tiles` list built by `_get_changed_tiles`:
`(x, y, tile_width, tile_height, tile_key)`. -/
structure TileRec where
  x : ℕ
  y : ℕ
  w : ℕ
  h : ℕ
  key : ℕ × ℕ
deriving DecidableEq, Repr

/-- Loop body of `RawControlleeProtocol._get_changed_tiles`
(raw_protocols.py lines 165-195) for one `(x, y)` grid position,
threading the `changed_tiles` list and the `last_tiles` /
`tile_timestamps` dictionaries. `hashFn` stands for Python's `hash` on
the tile bytes. Reading the unassigned `static_tile_threshold` attribute
(line 187) is an `AttributeError`. -/
def processTile (hashFn : List ℕ → ℤ) (f : Frame) (T : ℕ)
    (threshold : Option ℚ) (now : ℚ)
    (acc : List TileRec × ((ℕ × ℕ) → Option ℤ) × ((ℕ × ℕ) → Option ℚ))
    (p : ℕ × ℕ) :
    Except String (List TileRec × ((ℕ × ℕ) → Option ℤ) × ((ℕ × ℕ) → Option ℚ)) :=
  let x := p.1
  let y := p.2
  let tile_width := min T (f.width - x)
  let tile_height := min T (f.height - y)
  let tile_hash := hashFn (tileBytes f x y tile_width tile_height)
  let tile_key := (x / T, y / T)
  let changed := acc.1
  let lt := acc.2.1
  let tts := acc.2.2
  if lt tile_key ≠ some tile_hash then
    .ok (changed ++ [⟨x, y, tile_width, tile_height, tile_key⟩],
         fun k2 => if k2 = tile_key then some tile_hash else lt k2,
         fun k2 => if k2 = tile_key then some now else tts k2)
  else
    match tts tile_key with
    | some ts => do
      let tau ← require threshold "static_tile_threshold"
      if now - ts > tau then
        .ok (changed, lt, tts)
      else if now - ts > 30 then
        .ok (changed ++ [⟨x, y, tile_width, tile_height, tile_key⟩], lt,
             fun k2 => if k2 = tile_key then some now else tts k2)
      else
        .ok (changed, lt, tts)
    | none =>
      .ok (changed ++ [⟨x, y, tile_width, tile_height, tile_key⟩], lt,
           fun k2 => if k2 = tile_key then some now else tts k2)

/-- `RawControlleeProtocol._get_changed_tiles` (raw_protocols.py lines
159-197): iterate the T×T grid in source order (y outer, x inner),
collecting changed tiles and updating the caches. `self.tile_size` is
read before the loop (line 165); `self.last_tiles` and
`self.tile_timestamps` are read at the first iteration (lines 179-192),
so they only matter when the grid is nonempty. -/
def get_changed_tiles (hashFn : List ℕ → ℤ) (st : ControlleeState) (f : Frame) (now : ℚ) :
    Except String (List TileRec × ControlleeState) := do
  let T ← require st.tile_size "tile_size"
  let grid := (gridOffsets f.height T).flatMap
    (fun y => (gridOffsets f.width T).map (fun x => (x, y)))
  if grid = [] then
    .ok ([], st)
  else do
    let lt ← require st.last_tiles "last_tiles"
    let tts ← require st.tile_timestamps "tile_timestamps"
    let r ← grid.foldlM (processTile hashFn f T st.static_tile_threshold now) ([], lt, tts)
    .ok (r.1, { st with last_tiles := some r.2.1, tile_timestamps := some r.2.2 })

/-- Literal payload `b'NO_CHANGE'`. -/
def NO_CHANGE : List ℕ := [78, 79, 95, 67, 72, 65, 78, 71, 69]

/-- Literal tag `b'TILES'`. -/
def TILES_TAG : List ℕ := [84, 73, 76, 69, 83]

/-- Python `int(q)` packed as a u32, for the nonnegative fps values that
reach `struct.pack` here (truncation toward zero agrees with the floor on
nonnegative values; the mod is the `<I` wrap). -/
def intU32 (q : ℚ) : ℕ := (⌊q⌋).toNat % 2 ^ 32

/-- Total number of grid tiles as computed at raw_protocols.py line 206:
`((width + T - 1) // T) * ((height + T - 1) // T)`. -/
def totalTiles (f : Frame) (T : ℕ) : ℕ :=
  ((f.width + T - 1) / T) * ((f.height + T - 1) / T)

/-- Quality computation of `_send_changed_tiles` (raw_protocols.py lines
201-223): base from the fps target, then adjusted by the change ratio.
The float literals 0.05 and 0.2 are modelled as the rationals they
denote. Note: `self.network_stats['current_quality_offset']` is not read
anywhere in this computation. -/
def adaptiveQuality (fps_target : ℚ) (num_changed total_tiles : ℕ) : ℕ :=
  let base_quality : ℕ := if fps_target ≥ 120 then 20 else if fps_target ≥ 60 then 35 else 60
  let change_r : ℚ := (num_changed : ℚ) / ((max total_tiles 1 : ℕ) : ℚ)
  if change_r < 1 / 20 then min 95 (base_quality + 30)
  else if change_r < 1 / 5 then base_quality
  else max 10 (base_quality - 15)

/-- `RawControlleeProtocol._send_changed_tiles` (raw_protocols.py lines
199-245): one `write_message` with `b'TILES'` plus the 12-byte
`<III` header (num_tiles, quality, int(fps_target)), then one separate
`write_message` per tile carrying the 16-byte `<IIII` geometry header
followed by the codec bytes. `jpegEnc` stands for the JPEG encoder at the
given quality (with the source's subsampling/progressive settings folded
in). Returns the list of transport payloads in write order. -/
def send_changed_tiles (jpegEnc : ℕ → List ℕ → List ℕ) (st : ControlleeState)
    (f : Frame) (changed_tiles : List TileRec) : Except String (List (List ℕ)) := do
  let T ← require st.tile_size "tile_size"
  let fps_target := (st.config VAR_FPS).getD VAR_FPS_DEFAULT
  let quality := adaptiveQuality fps_target changed_tiles.length (totalTiles f T)
  let header := TILES_TAG ++ toLE 4 changed_tiles.length ++ toLE 4 quality ++
    toLE 4 (intU32 fps_target)
  .ok (header :: changed_tiles.map (fun t =>
    toLE 4 t.x ++ toLE 4 t.y ++ toLE 4 t.w ++ toLE 4 t.h ++
      jpegEnc quality (tileBytes f t.x t.y t.w t.h)))

/-- `RawControlleeProtocol.send_screenshot_jpeg` (raw_protocols.py lines
132-157), from the post-scale frame on: detect changed tiles; if none,
the single payload `b'NO_CHANGE'`; otherwise the payloads produced by
`_send_changed_tiles`. -/
def send_screenshot_jpeg (hashFn : List ℕ → ℤ) (jpegEnc : ℕ → List ℕ → List ℕ)
    (st : ControlleeState) (f : Frame) (now : ℚ) :
    Except String (List (List ℕ) × ControlleeState) := do
  let r ← get_changed_tiles hashFn st f now
  if r.1 = [] then
    .ok ([NO_CHANGE], r.2)
  else do
    let msgs ← send_changed_tiles jpegEnc r.2 f r.1
    .ok (msgs, r.2)

/-- `RawControlleeProtocol._adjust_quality_based_on_feedback`
(raw_protocols.py lines 270-289): accumulate the announced adjustment
into `current_quality_offset` clamped to [-50, 50], push the fps into a
10-entry rolling window, then adapt the tile size from the window
average. The tile-size branches read the unassigned `self.tile_size`
(an `AttributeError`; Python keeps the already-applied offset/history
mutations in that case, which no caller here observes afterwards), but
short-circuiting skips that read when the average lies in [30, 50]. -/
def adjust_quality_based_on_feedback (st : ControlleeState) (quality_adjustment : ℤ)
    (current_fps : ℚ) : Except String ControlleeState := do
  let off := max (-50) (min 50 (st.current_quality_offset + quality_adjustment))
  let hist0 := st.fps_history ++ [current_fps]
  let hist := if hist0.length > 10 then hist0.drop 1 else hist0
  let st2 := { st with current_quality_offset := off, fps_history := hist }
  let avg_fps := if hist = [] then current_fps else hist.sum / (hist.length : ℚ)
  if avg_fps < 30 then do
    let T ← require st2.tile_size "tile_size"
    if T > 32 then .ok { st2 with tile_size := some (max 32 (T / 2)) }
    else .ok st2
  else if avg_fps > 50 then do
    let T ← require st2.tile_size "tile_size"
    if T < 128 then .ok { st2 with tile_size := some (min 128 (T * 2)) }
    else .ok st2
  else .ok st2

/-- A concrete 64×64 constant frame (one full tile at T = 64) used by the
closed theorems below. -/
def sampleFrame : Frame := ⟨64, 64, fun _ _ => 7⟩

/-- C2 (refuted by the code, status code_bug): on a freshly constructed
`RawControlleeProtocol`, the very first `send_screenshot_jpeg` raises
`AttributeError` on `self.tile_size` at raw_protocols.py line 165,
because `__init__` assigns none of `tile_size`, `last_tiles`,
`tile_timestamps`, `static_tile_threshold`; no `TILES` or `NO_CHANGE`
payload is produced. The hash and codec parameters are irrelevant (any
values give the same error). -/
theorem C2_uninitialized_tile_state :
    send_screenshot_jpeg (fun _ => 0) (fun _ _ => [0]) rawControlleeInit sampleFrame 0 =
      .error "tile_size" := rfl

/-- C6 (refuted by the code, status code_bug): capturing the byte-identical
frame twice from a fresh controllee does not make the second emission
`NO_CHANGE`; both invocations end in the `tile_size` attribute error
before the change check is reached (the failed first call mutates no
state, so the second call starts from the same state), and an
`Except.error` is a different constructor from any
`Except.ok ([NO_CHANGE], ·)`, so no payload at all is emitted. -/
theorem C6_identical_frames_no_nochange :
    send_screenshot_jpeg (fun _ => 0) (fun _ _ => [0]) rawControlleeInit sampleFrame 0 =
      .error "tile_size" ∧
    send_screenshot_jpeg (fun _ => 0) (fun _ _ => [0]) rawControlleeInit sampleFrame (1 / 120) =
      .error "tile_size" :=
  ⟨rfl, rfl⟩

/-- A controllee state whose tile attributes are populated, whose single
64×64 tile is cached with its current fingerprint, and whose tile
timestamp is `ts` with static threshold `tau`. Used to exercise the
static-tile branch of `_get_changed_tiles`. -/
def staleTileState (hashFn : List ℕ → ℤ) (ts tau : ℚ) : ControlleeState :=
  { rawControlleeInit with
    tile_size := some 64
    last_tiles := some (fun k =>
      if k = (0, 0) then some (hashFn (tileBytes sampleFrame 0 0 64 64)) else none)
    tile_timestamps := some (fun k => if k = (0, 0) then some ts else none)
    static_tile_threshold := some tau }

theorem processTile_static_skip (hashFn : List ℕ → ℤ) (f : Frame) (T : ℕ)
    (ts tau now : ℚ) (changed : List TileRec)
    (lt : (ℕ × ℕ) → Option ℤ) (tts : (ℕ × ℕ) → Option ℚ) (x y : ℕ)
    (hlt : lt (x / T, y / T) =
      some (hashFn (tileBytes f x y (min T (f.width - x)) (min T (f.height - y)))))
    (htts : tts (x / T, y / T) = some ts)
    (hstatic : now - ts > tau) :
    processTile hashFn f T (some tau) now (changed, lt, tts) (x, y) =
      .ok (changed, lt, tts) := by
  unfold processTile
  dsimp only
  rw [htts]
  rw [if_neg (by rw [hlt]; simp)]
  simp only [require, Bind.bind, Except.bind]
  rw [if_pos hstatic]

/-- C3 (refuted by the code, status code_bug): the 30-second resync does
not hold. Once a tile has been unchanged for longer than
`static_tile_threshold`, `_get_changed_tiles` skips it (raw_protocols.py
lines 185-189, "Mark as static - don't send anymore") without updating
its timestamp — even when the last transmission lies more than 30 s in
the past — and returns the state unchanged, so every later capture skips
it again: the gap between transmissions of that tile is unbounded.
(Independently, on the raw controllee `static_tile_threshold` is never
assigned at all, so the whole path raises `AttributeError`; see C2.) -/
theorem C3_resync_starvation (hashFn : List ℕ → ℤ) (ts tau now : ℚ)
    (hstatic : now - ts > tau) (_hgap : now - ts > 30) :
    get_changed_tiles hashFn (staleTileState hashFn ts tau) sampleFrame now =
      .ok ([], staleTileState hashFn ts tau) := by
  have hT : (staleTileState hashFn ts tau).tile_size = some 64 := rfl
  have hLT : (staleTileState hashFn ts tau).last_tiles =
      some (fun k =>
        if k = (0, 0) then some (hashFn (tileBytes sampleFrame 0 0 64 64)) else none) := rfl
  have hTT : (staleTileState hashFn ts tau).tile_timestamps =
      some (fun k => if k = (0, 0) then some ts else none) := rfl
  have hTH : (staleTileState hashFn ts tau).static_tile_threshold = some tau := rfl
  have hgrid : ((gridOffsets sampleFrame.height 64).flatMap
      (fun y => (gridOffsets sampleFrame.width 64).map (fun x => (x, y)))) =
      [((0 : ℕ), (0 : ℕ))] := by decide
  have hstep := processTile_static_skip hashFn sampleFrame 64 ts tau now []
    (fun k => if k = (0, 0) then some (hashFn (tileBytes sampleFrame 0 0 64 64)) else none)
    (fun k => if k = (0, 0) then some ts else none) 0 0
    (by simp [sampleFrame]) (by simp [sampleFrame]) hstatic
  unfold get_changed_tiles
  rw [hT]
  simp only [require, Bind.bind, Except.bind, hgrid, hLT, hTT, hTH]
  simp only [List.foldlM, Bind.bind, Except.bind, hstep]
  rfl

/-- Witness for C3: tile last sent at t = 0, static threshold 31 s,
capture at t = 100 s — more than 30 s without a resend, and the tile is
skipped again with its timestamp unchanged. -/
theorem C3_resync_starvation_witness :
    (100 : ℚ) - 0 > 31 ∧ (100 : ℚ) - 0 > 30 ∧
    get_changed_tiles (fun _ => 0) (staleTileState (fun _ => 0) 0 31) sampleFrame 100 =
      .ok ([], staleTileState (fun _ => 0) 0 31) :=
  ⟨by norm_num, by norm_num,
   C3_resync_starvation (fun _ => 0) 0 31 100 (by norm_num) (by norm_num)⟩

/-! Controller side (raw sockets): `RawControllerProtocol` in
raw_protocols.py. -/

/-- State of a `RawControllerProtocol` object as read by the message
path: `last_received_time`, the fps slider value (`self.fps_scale.get()`),
the tile cache (decoded tile images modelled by their codec bytes) and
the estimated image size. -/
structure ControllerState where
  last_received_time : ℚ
  target_fps : ℚ
  tile_cache : (ℕ × ℕ) → Option (List ℕ)
  image_size : Option (ℕ × ℕ)

/-- Messages the controller writes back during `message_received`:
the `NET_FEEDBACK:Δ:fps` string (modelled by its two rendered fields) and
the `SEND_SCREENSHOT` request. -/
inductive ControllerOut where
  | feedback (delta : ℤ) (fps : ℚ)
  | screenshotRequest

/-- Predicate picking the `NET_FEEDBACK` messages out of the write list. -/
def isFeedback : ControllerOut → Bool
  | .feedback _ _ => true
  | .screenshotRequest => false

/-- Δ computation shared verbatim by
`RawControllerProtocol._send_network_feedback` (raw_protocols.py lines
523-537) and `PyQt5ControllerProtocol._send_network_feedback`
(pyqt5_controller.py lines 368-382): −10 below 0.8·target, +5 above
1.1·target, else 0 (float literals modelled as the rationals they
denote). -/
def feedbackDelta (current_fps target_fps : ℚ) : ℤ :=
  if current_fps < target_fps * (4 / 5) then -10
  else if current_fps > target_fps * (11 / 10) then 5
  else 0

/-- Plausibility test of `_process_tiles`' header scan (raw_protocols.py
lines 604-606): the four u32 values at offset `i` look like tile
coordinates. -/
def headerLooksPlausible (data : List ℕ) (i : ℕ) : Bool :=
  let tx := fromLE ((data.drop i).take 4)
  let ty := fromLE ((data.drop (i + 4)).take 4)
  let tw := fromLE ((data.drop (i + 8)).take 4)
  let th := fromLE ((data.drop (i + 12)).take 4)
  decide (tx ≤ 10000 ∧ ty ≤ 10000 ∧ 1 ≤ tw ∧ tw ≤ 200 ∧ 1 ≤ th ∧ th ≤ 200)

/-- The `jpeg_end` heuristic of `RawControllerProtocol._process_tiles`
(raw_protocols.py lines 597-610): scan offsets `i ∈ range(16, len-16)`
for something that looks like the next 16-byte tile header; default to
the end of the data. -/
def findJpegEnd (data : List ℕ) : ℕ :=
  match (List.range (data.length - 32)).find? (fun j => headerLooksPlausible data (j + 16)) with
  | some j => j + 16
  | none => data.length

/-- The tile loop of `RawControllerProtocol._process_tiles`
(raw_protocols.py lines 590-632): while fewer than `num_tiles` tiles are
processed and at least 16 bytes remain, strip a geometry header, cut the
codec bytes at the heuristic boundary, decode (`decode` stands for
`PIL.Image.open`; `none` is a decode failure, whose `continue` skips the
tile without counting it), cache the tile under `(x, y)` and default the
image size to (1920, 1080). -/
def processTilesLoop (decode : List ℕ → Option (List ℕ)) (num_tiles : ℕ)
    (tiles_processed : ℕ) (cache : (ℕ × ℕ) → Option (List ℕ))
    (image_size : Option (ℕ × ℕ)) (data : List ℕ) :
    ((ℕ × ℕ) → Option (List ℕ)) × Option (ℕ × ℕ) :=
  if _h : tiles_processed < num_tiles ∧ 16 ≤ data.length then
    let x := fromLE (data.take 4)
    let y := fromLE ((data.drop 4).take 4)
    let rest := data.drop 16
    let jpeg_end := if tiles_processed < num_tiles - 1 then findJpegEnd rest else rest.length
    let jpeg_data := rest.take jpeg_end
    let rest2 := rest.drop jpeg_end
    match decode jpeg_data with
    | some img =>
      processTilesLoop decode num_tiles (tiles_processed + 1)
        (fun k => if k = (x, y) then some img else cache k)
        (match image_size with | none => some (1920, 1080) | some s => some s)
        rest2
    | none => processTilesLoop decode num_tiles tiles_processed cache image_size rest2
  else (cache, image_size)
termination_by data.length
decreasing_by
  all_goals simp only [List.length_drop]; omega

/-- `RawControllerProtocol._process_tiles` (raw_protocols.py lines
577-638): parse `num_tiles` and `quality` from the first 8 bytes
(`'<II'` — although the sender packs a 12-byte `'<III'` header), then run
the tile loop on the remainder. The trailing `_reconstruct_image` only
repaints the display and touches no protocol state. -/
def process_tiles (decode : List ℕ → Option (List ℕ)) (st : ControllerState)
    (data : List ℕ) : ControllerState :=
  if data.length < 8 then st
  else
    let num_tiles := fromLE (data.take 4)
    let r := processTilesLoop decode num_tiles 0 st.tile_cache st.image_size (data.drop 8)
    { st with tile_cache := r.1, image_size := r.2 }

/-- The fps/feedback/request tail of `RawControllerProtocol.message_received`
(raw_protocols.py lines 505-516), reached when the payload handling did
not raise: compute `fps = 1/(now - last_received_time)` (a
`ZeroDivisionError` when the clock did not advance diverts to the except
branch, which only requests the next screenshot), emit exactly one
`NET_FEEDBACK` and one `SEND_SCREENSHOT`. -/
def messageReceivedTail (st : ControllerState) (now : ℚ) :
    ControllerState × List ControllerOut :=
  if now = st.last_received_time then
    (st, [.screenshotRequest])
  else
    let fps := 1 / (now - st.last_received_time)
    ({ st with last_received_time := now },
     [.feedback (feedbackDelta fps st.target_fps) fps, .screenshotRequest])

/-- `RawControllerProtocol.message_received` (raw_protocols.py lines
490-521): dispatch on the payload. `NO_CHANGE` and `TILES`-prefixed
payloads reach the feedback tail; every other payload is routed to
`self.process_jpeg_data` — a method that does not exist on
`RawControllerProtocol` — so an `AttributeError` is raised and the except
branch (lines 518-521) sends only the screenshot request, with no
feedback and no state change. -/
def message_received (decode : List ℕ → Option (List ℕ)) (st : ControllerState)
    (now : ℚ) (data : List ℕ) : ControllerState × List ControllerOut :=
  if data = NO_CHANGE then
    messageReceivedTail st now
  else if TILES_TAG.isPrefixOf data then
    messageReceivedTail (process_tiles decode st (data.drop 5)) now
  else
    (st, [.screenshotRequest])

/-- A fresh raw controller state: `last_received_time` from construction,
fps slider at the default 120, empty tile cache, no image size. -/
def rawControllerState0 : ControllerState :=
  { last_received_time := 0
    target_fps := 120
    tile_cache := fun _ => none
    image_size := none }

theorem adaptiveQuality_120_1_1 : adaptiveQuality 120 1 1 = 10 := by
  unfold adaptiveQuality
  norm_num

theorem intU32_120 : intU32 120 = 120 := by
  unfold intU32
  norm_num
  decide

/-- C1 (refuted by the code, status code_bug): a tiled update is not one
transport payload. For a one-tile update the sender emits two separate
`write_message` payloads — the `TILES` tag plus 12-byte header, then the
bare 16-byte geometry header plus codec bytes — while the raw receiver,
handed the first payload, parses only its 8-byte `'<II'` header and finds
no tile data in it, leaving the tile cache untouched. -/
theorem C1_tiles_not_single_payload :
    send_changed_tiles (fun _ _ => [9, 9, 9]) (staleTileState (fun _ => 0) 0 31) sampleFrame
        [⟨0, 0, 64, 64, (0, 0)⟩] =
      .ok [TILES_TAG ++ toLE 4 1 ++ toLE 4 10 ++ toLE 4 120,
           toLE 4 0 ++ toLE 4 0 ++ toLE 4 64 ++ toLE 4 64 ++ [9, 9, 9]] ∧
    [TILES_TAG ++ toLE 4 1 ++ toLE 4 10 ++ toLE 4 120,
     toLE 4 0 ++ toLE 4 0 ++ toLE 4 64 ++ toLE 4 64 ++ [9, 9, 9]].length ≠ 1 ∧
    process_tiles (fun _ => none) rawControllerState0
        ((TILES_TAG ++ toLE 4 1 ++ toLE 4 10 ++ toLE 4 120).drop 5) = rawControllerState0 := by
  refine ⟨?_, by decide, ?_⟩
  · unfold send_changed_tiles
    rw [show (staleTileState (fun _ => 0) 0 31).tile_size = some 64 from rfl]
    simp only [require, Bind.bind, Except.bind]
    rw [show ((staleTileState (fun _ => 0) 0 31).config VAR_FPS).getD VAR_FPS_DEFAULT =
      (120 : ℚ) from rfl]
    rw [show totalTiles sampleFrame 64 = 1 from by decide]
    rw [show List.length [(⟨0, 0, 64, 64, (0, 0)⟩ : TileRec)] = 1 from rfl]
    rw [adaptiveQuality_120_1_1, intU32_120]
    rfl
  · unfold process_tiles
    rw [show ((TILES_TAG ++ toLE 4 1 ++ toLE 4 10 ++ toLE 4 120).drop 5) =
      toLE 4 1 ++ toLE 4 10 ++ toLE 4 120 from by decide]
    rw [if_neg (by decide)]
    dsimp only
    rw [show fromLE (List.take 4 (toLE 4 1 ++ toLE 4 10 ++ toLE 4 120)) = 1 from by decide]
    rw [show List.drop 8 (toLE 4 1 ++ toLE 4 10 ++ toLE 4 120) = toLE 4 120 from by decide]
    rw [processTilesLoop.eq_def]
    rw [dif_neg (by decide)]

/-- The quality computation as claim C4 states it (spec §4.3 step 5 with
the §4.5 feedback offset): base by fps target, ratio adjustment with the
intermediate caps, then the accumulated feedback offset added and the
result clamped to [10, 95]. This definition follows the claim's words —
not the source — and is compared against the source's computation. -/
def qualityPerClaim (fps_target : ℚ) (num_changed total_tiles : ℕ) (offset : ℤ) : ℤ :=
  let base : ℤ := if fps_target ≥ 120 then 20 else if fps_target ≥ 60 then 35 else 60
  let change_r : ℚ := (num_changed : ℚ) / ((max total_tiles 1 : ℕ) : ℚ)
  let adjusted : ℤ :=
    if change_r < 1 / 20 then min 95 (base + 30)
    else if change_r < 1 / 5 then base
    else max 10 (base - 15)
  max 10 (min 95 (adjusted + offset))

/-- A controllee state with fps set to 30, tile state present, and an
accumulated feedback offset of +20. -/
def offsetState : ControlleeState :=
  { set_variable rawControlleeInit VAR_FPS 30 with
    tile_size := some 64
    current_quality_offset := 20 }

/-- A 640×64 constant frame: a 10×1 grid of 64-pixel tiles. -/
def wideFrame : Frame := ⟨640, 64, fun _ _ => 3⟩

/-- C4 counterexample: with fps target 30, change ratio 1/10 and
accumulated feedback offset +20, the claim's formula gives quality
60 + 20 = 80, but the quality transmitted in the `TILES` header is 60:
`_send_changed_tiles` never reads
`network_stats['current_quality_offset']`, so no offset is added and no
final clamp is applied. -/
theorem C4_quality_offset_counterexample :
    qualityPerClaim 30 1 10 20 = 80 ∧
    send_changed_tiles (fun _ _ => [1, 2, 3]) offsetState wideFrame [⟨0, 0, 64, 64, (0, 0)⟩] =
      .ok [TILES_TAG ++ toLE 4 1 ++ toLE 4 60 ++ toLE 4 30,
           toLE 4 0 ++ toLE 4 0 ++ toLE 4 64 ++ toLE 4 64 ++ [1, 2, 3]] ∧
    (fromLE (((TILES_TAG ++ toLE 4 1 ++ toLE 4 60 ++ toLE 4 30).drop 9).take 4) : ℤ) ≠
      qualityPerClaim 30 1 10 20 := by
  have h80 : qualityPerClaim 30 1 10 20 = 80 := by
    unfold qualityPerClaim
    norm_num
  refine ⟨h80, ?_, ?_⟩
  · unfold send_changed_tiles
    rw [show offsetState.tile_size = some 64 from rfl]
    simp only [require, Bind.bind, Except.bind]
    rw [show (offsetState.config VAR_FPS).getD VAR_FPS_DEFAULT = (30 : ℚ) from rfl]
    rw [show totalTiles wideFrame 64 = 10 from by decide]
    rw [show List.length [(⟨0, 0, 64, 64, (0, 0)⟩ : TileRec)] = 1 from rfl]
    rw [show adaptiveQuality 30 1 10 = 60 from by unfold adaptiveQuality; norm_num]
    rw [show intU32 30 = 30 from by unfold intU32; norm_num; decide]
    rfl
  · rw [h80]
    decide

/-- C4 amended: the transmitted quality is exactly the base-plus-ratio
adjustment computed by `_send_changed_tiles` — the accumulated feedback
offset (and the rolling fps history) has no influence on the emitted
payloads — and that adjustment already lies in [10, 95].
`_adjust_quality_based_on_feedback` does accumulate the announced Δ into
`current_quality_offset` clamped to [−50, 50], but nothing reads it back
into the quality. -/
theorem C4_quality_amended (jpegEnc : ℕ → List ℕ → List ℕ) (st : ControlleeState)
    (f : Frame) (tiles : List TileRec) (off : ℤ) (hist : List ℚ)
    (T : ℕ) (hT : st.tile_size = some T) :
    send_changed_tiles jpegEnc
        { st with current_quality_offset := off, fps_history := hist } f tiles =
      send_changed_tiles jpegEnc st f tiles ∧
    send_changed_tiles jpegEnc st f tiles =
      .ok ((TILES_TAG ++ toLE 4 tiles.length ++
        toLE 4 (adaptiveQuality ((st.config VAR_FPS).getD VAR_FPS_DEFAULT)
          tiles.length (totalTiles f T)) ++
        toLE 4 (intU32 ((st.config VAR_FPS).getD VAR_FPS_DEFAULT))) ::
        tiles.map (fun t =>
          toLE 4 t.x ++ toLE 4 t.y ++ toLE 4 t.w ++ toLE 4 t.h ++
            jpegEnc (adaptiveQuality ((st.config VAR_FPS).getD VAR_FPS_DEFAULT)
              tiles.length (totalTiles f T))
              (tileBytes f t.x t.y t.w t.h))) ∧
    (∀ (fps2 : ℚ) (n tot : ℕ),
      10 ≤ adaptiveQuality fps2 n tot ∧ adaptiveQuality fps2 n tot ≤ 95) ∧
    (∀ (qa : ℤ) (cfps : ℚ) (st2 : ControlleeState),
      adjust_quality_based_on_feedback st qa cfps = .ok st2 →
      st2.current_quality_offset = max (-50) (min 50 (st.current_quality_offset + qa)) ∧
      -50 ≤ st2.current_quality_offset ∧ st2.current_quality_offset ≤ 50) := by
  refine ⟨rfl, ?_, ?_, ?_⟩
  · unfold send_changed_tiles
    rw [hT]
    simp only [require, Bind.bind, Except.bind]
  · intro fps2 n tot
    unfold adaptiveQuality
    dsimp only
    split_ifs <;> constructor <;> omega
  · intro qa cfps st2 h
    unfold adjust_quality_based_on_feedback at h
    dsimp only at h
    rw [hT] at h
    simp only [require, Bind.bind, Except.bind] at h
    split_ifs at h <;>
      (injection h with h2;
       have hoff : st2.current_quality_offset =
         max (-50) (min 50 (st.current_quality_offset + qa)) := by rw [← h2];
       exact ⟨hoff, by omega, by omega⟩)

/-- Witness for C4's amended statement at a concrete state (fps 30,
offset +20, one changed tile of ten). -/
theorem C4_quality_amended_witness :
    offsetState.tile_size = some 64 ∧
    (10 ≤ adaptiveQuality 30 1 10 ∧ adaptiveQuality 30 1 10 ≤ 95) :=
  ⟨rfl,
   (C4_quality_amended (fun _ _ => [1, 2, 3]) offsetState wideFrame
     [⟨0, 0, 64, 64, (0, 0)⟩] 0 [] 64 rfl).2.2.1 30 1 10⟩

/-- A tile-body payload as actually emitted by `_send_changed_tiles` for
a tile at (0,0) of size 64×64: a bare 16-byte geometry header followed by
codec bytes. It is neither `NO_CHANGE` nor `TILES`-prefixed. -/
def tileBodyPayload : List ℕ :=
  toLE 4 0 ++ toLE 4 0 ++ toLE 4 64 ++ toLE 4 64 ++ [9, 9, 9]

/-- C7 (refuted by the code, status code_bug): not every received frame
update triggers exactly one `NET_FEEDBACK`. A frame-update payload routed
to the legacy branch of `RawControllerProtocol.message_received` —
every tile-body payload of a tiled update, and any `NUMPY` payload —
raises `AttributeError` (`process_jpeg_data` is not defined on the
class), so the except branch emits only the screenshot request and zero
`NET_FEEDBACK` messages (first two conjuncts). On the surviving branches
the code does emit exactly one feedback whose Δ follows the claimed
thresholds (remaining conjuncts: `NO_CHANGE` at observed fps 1 against
target 120 gives one feedback; Δ is −10 below 0.8·target, +5 above
1.1·target, 0 otherwise). -/
theorem C7_feedback_per_update :
    (message_received (fun _ => none) rawControllerState0 1 tileBodyPayload).2 =
      [ControllerOut.screenshotRequest] ∧
    ((message_received (fun _ => none) rawControllerState0 1 tileBodyPayload).2.countP
      isFeedback = 0) ∧
    ((message_received (fun _ => none) rawControllerState0 1 NO_CHANGE).2.countP
      isFeedback = 1) ∧
    feedbackDelta 1 120 = -10 ∧
    feedbackDelta 40 120 = -10 ∧ feedbackDelta 140 120 = 5 ∧ feedbackDelta 120 120 = 0 := by
  refine ⟨rfl, rfl, ?_, ?_, ?_, ?_, ?_⟩
  · unfold message_received
    rw [if_pos rfl]
    unfold messageReceivedTail
    rw [if_neg (show (1 : ℚ) ≠ rawControllerState0.last_received_time by
      rw [show rawControllerState0.last_received_time = 0 from rfl]; norm_num)]
    simp [isFeedback, List.countP, List.countP.go]
  · unfold feedbackDelta
    norm_num
  · unfold feedbackDelta
    norm_num
  · unfold feedbackDelta
    norm_num
  · unfold feedbackDelta
    norm_num

/-! Raw-pixel (`NUMPY`) mode: encoder `send_screenshot_numpy`
(raw_protocols.py lines 102-130) and decoder `processNumpyData`
(controller.py lines 180-203; pyqt5_controller.py lines 403-423 are
identical through the reshape). -/

/-- A pixel array of rank 3 (rows × columns × channels), each byte a
natural number. -/
abbrev Img3 := List (List (List ℕ))

/-- Well-formedness of a rank-3 array of shape `(h, w, c)`. -/
def wf3 (img : Img3) (h w c : ℕ) : Prop :=
  img.length = h ∧ ∀ r ∈ img, r.length = w ∧ ∀ px ∈ r, px.length = c

/-- The channel selection `img_array[:, :, [2, 1, 0]]`: drop alpha and
reorder BGR to RGB. -/
def bgraToRgb (img : Img3) : Img3 :=
  img.map (fun row => row.map (fun px => [px.getD 2 0, px.getD 1 0, px.getD 0 0]))

/-- Numpy slicing `l[::step]`: the elements at indices 0, step, 2·step, …
(for the in-range indices produced here, `getD` always hits a real
element). -/
def sliceStep [Inhabited α] (step : ℕ) (l : List α) : List α :=
  (List.range ((l.length + step - 1) / step)).map (fun i => l.getD (i * step) default)

/-- `rgb_array.tobytes()`: row-major flattening of a rank-3 array. -/
def flatten3 (img : Img3) : List ℕ := (img.map List.flatten).flatten

/-- The encoder's array pipeline (raw_protocols.py lines 108-115): BGRA
to RGB, then, when `scale < 1`, decimation of rows and columns by the
integer step `max(1, int(1/scale))`. -/
def rgbTransform (img : Img3) (scale : ℚ) : Img3 :=
  let rgb := bgraToRgb img
  if scale < 1 then
    let step := max 1 (Int.toNat ⌊1 / scale⌋)
    (sliceStep step rgb).map (sliceStep step)
  else rgb

/-- Literal tag `b'NUMPY'`. -/
def NUMPY_TAG : List ℕ := [78, 85, 77, 80, 89]

/-- `RawControlleeProtocol.send_screenshot_numpy` (raw_protocols.py lines
102-130) from the BGRA buffer on: transform the array, emit
`b'NUMPY'` plus the `'<III'` shape header plus the pixel bytes — raw when
`fps_target > 120`, deflated otherwise (`comp` stands for
`zlib.compress` at the configured level). -/
def send_screenshot_numpy (comp : List ℕ → List ℕ) (img : Img3) (scale fps_target : ℚ) :
    List ℕ :=
  let rgb := rgbTransform img scale
  let header := toLE 4 rgb.length ++ toLE 4 (rgb.headD []).length ++
    toLE 4 ((rgb.headD []).headD []).length
  let bytes := flatten3 rgb
  if fps_target > 120 then NUMPY_TAG ++ header ++ bytes
  else NUMPY_TAG ++ header ++ comp bytes

/-- Split a list into consecutive groups of `n` (the shape-respecting
reading used to model `reshape`). -/
def chunks (n : ℕ) (l : List α) : List (List α) :=
  match l with
  | [] => []
  | x :: xs =>
    if n = 0 then []
    else (x :: xs).take n :: chunks n ((x :: xs).drop n)
termination_by l.length
decreasing_by
  simp only [List.length_drop, List.length_cons]
  omega

/-- `np.frombuffer(..., dtype=np.uint8).reshape((h, w, c))`: succeeds
exactly when the byte count matches the shape (otherwise numpy raises). -/
def reshape3 (h w c : ℕ) (bytes : List ℕ) : Option Img3 :=
  if bytes.length = h * w * c then some ((chunks (w * c) bytes).map (chunks c)) else none

/-- `ControllerProtocol.processNumpyData` (controller.py lines 180-203)
on the payload after the `NUMPY` tag: parse the `'<III'` header,
decompress exactly when the body length differs from `h·w·c` (`decomp`
stands for `zlib.decompress`), reshape to `(h, w, c)`. Returns the
reconstructed array. -/
def process_numpy_data (decomp : List ℕ → List ℕ) (data : List ℕ) : Option Img3 :=
  if data.length < 12 then none
  else
    let height := fromLE (data.take 4)
    let width := fromLE ((data.drop 4).take 4)
    let channels := fromLE ((data.drop 8).take 4)
    let payload := data.drop 12
    let expected := height * width * channels
    let array_bytes := if payload.length = expected then payload else decomp payload
    reshape3 height width channels array_bytes

theorem flatten_length_uniform (m : ℕ) (xs : List (List α))
    (hx : ∀ x ∈ xs, x.length = m) : xs.flatten.length = xs.length * m := by
  induction xs with
  | nil => simp
  | cons x xs ih =>
    simp only [List.flatten_cons, List.length_append, List.length_cons]
    rw [hx x (List.mem_cons_self x xs), ih (fun y hy => hx y (List.mem_cons_of_mem x hy))]
    ring

theorem chunks_nil (n : ℕ) : chunks n ([] : List α) = [] := by
  rw [chunks]

theorem chunks_cons_of_length (n : ℕ) (x rest : List α) (hx : x.length = n) (hn : 0 < n) :
    chunks n (x ++ rest) = x :: chunks n rest := by
  cases x with
  | nil => simp at hx; omega
  | cons a as =>
    rw [List.cons_append, chunks, if_neg (by omega), ← List.cons_append,
      List.take_left' hx, List.drop_left' hx]

theorem chunks_flatten (n : ℕ) (hn : 0 < n) (xs : List (List α))
    (hx : ∀ x ∈ xs, x.length = n) : chunks n xs.flatten = xs := by
  induction xs with
  | nil => exact chunks_nil n
  | cons x xs ih =>
    rw [List.flatten_cons, chunks_cons_of_length n x xs.flatten
      (hx x (List.mem_cons_self x xs)) hn,
      ih (fun y hy => hx y (List.mem_cons_of_mem x hy))]

theorem flatten3_length (img : Img3) (h w c : ℕ) (hwf : wf3 img h w c) :
    (flatten3 img).length = h * w * c := by
  obtain ⟨hlen, hrow⟩ := hwf
  unfold flatten3
  rw [flatten_length_uniform (w * c) (img.map List.flatten)]
  · rw [List.length_map, hlen]
    ring
  · intro x hx
    obtain ⟨r, hr, rfl⟩ := List.mem_map.mp hx
    rw [flatten_length_uniform c r (hrow r hr).2, (hrow r hr).1]

theorem reshape3_flatten3 (img : Img3) (h w c : ℕ) (hwf : wf3 img h w c)
    (hw : 0 < w) (hc : 0 < c) : reshape3 h w c (flatten3 img) = some img := by
  obtain ⟨hlen, hrow⟩ := hwf
  unfold reshape3
  rw [if_pos (flatten3_length img h w c ⟨hlen, hrow⟩)]
  have h1 : chunks (w * c) (flatten3 img) = img.map List.flatten := by
    unfold flatten3
    apply chunks_flatten (w * c) (Nat.mul_pos hw hc)
    intro x hx
    obtain ⟨r, hr, rfl⟩ := List.mem_map.mp hx
    rw [flatten_length_uniform c r (hrow r hr).2, (hrow r hr).1]
  rw [h1, List.map_map]
  congr 1
  rw [show List.map (chunks c ∘ List.flatten) img = List.map id img from ?_, List.map_id]
  apply List.map_congr_left
  intro r hr
  exact chunks_flatten c hc r (hrow r hr).2

theorem sliceStep_length [Inhabited α] (s : ℕ) (l : List α) :
    (sliceStep s l).length = (l.length + s - 1) / s := by
  simp [sliceStep]

theorem sliceStep_subset [Inhabited α] (s : ℕ) (l : List α) (x : α)
    (hx : x ∈ sliceStep s l) : x ∈ l := by
  simp only [sliceStep, List.mem_map, List.mem_range] at hx
  obtain ⟨i, hi, rfl⟩ := hx
  cases s with
  | zero => simp [Nat.div_zero] at hi
  | succ s2 =>
    have hlt : i * (s2 + 1) < l.length := by
      have h1 : (i + 1) * (s2 + 1) ≤ ((l.length + (s2 + 1) - 1) / (s2 + 1)) * (s2 + 1) :=
        Nat.mul_le_mul_right (s2 + 1) hi
      have h2 : ((l.length + (s2 + 1) - 1) / (s2 + 1)) * (s2 + 1) ≤ l.length + (s2 + 1) - 1 :=
        Nat.div_mul_le_self _ _
      have h3 : (i + 1) * (s2 + 1) = i * (s2 + 1) + (s2 + 1) := by ring
      omega
    rw [List.getD_eq_getElem l default hlt]
    exact List.getElem_mem hlt

theorem ceilDiv_pos (h s : ℕ) (hh : 0 < h) (hs : 0 < s) : 0 < (h + s - 1) / s :=
  Nat.lt_of_lt_of_le (by omega : 0 < 1) (by
    rw [Nat.le_div_iff_mul_le hs]
    omega)

theorem ceilDiv_le (h s : ℕ) (hs : 0 < s) : (h + s - 1) / s ≤ h := by
  cases h with
  | zero =>
    rw [Nat.div_eq_of_lt (by omega)]
  | succ h2 =>
    have hle : h2 + 1 + s - 1 ≤ s * (h2 + 1) + (s - 1) := by
      have : h2 + 1 ≤ s * (h2 + 1) := Nat.le_mul_of_pos_left _ hs
      omega
    exact (Nat.div_le_iff_le_mul_add_pred hs).mpr hle

theorem bgraToRgb_rows (img : Img3) (h w c : ℕ) (hwf : wf3 img h w c) :
    ∀ r ∈ bgraToRgb img, r.length = w ∧ ∀ px ∈ r, px.length = 3 := by
  intro r hr
  obtain ⟨r0, hr0, rfl⟩ := List.mem_map.mp hr
  constructor
  · rw [List.length_map]
    exact (hwf.2 r0 hr0).1
  · intro px hpx
    obtain ⟨px0, _, rfl⟩ := List.mem_map.mp hpx
    rfl

theorem process_numpy_header (decomp : List ℕ → List ℕ) (L w2 : ℕ) (body : List ℕ)
    (rgbT : Img3) (hL : L < 2 ^ 32) (hw2 : w2 < 2 ^ 32)
    (hbody : (body.length = L * w2 * 3 ∧ body = flatten3 rgbT) ∨
             (body.length ≠ L * w2 * 3 ∧ decomp body = flatten3 rgbT))
    (hre : reshape3 L w2 3 (flatten3 rgbT) = some rgbT) :
    process_numpy_data decomp (toLE 4 L ++ (toLE 4 w2 ++ (toLE 4 3 ++ body))) =
      some rgbT := by
  have h232 : (256 : ℕ) ^ 4 = 2 ^ 32 := by norm_num
  have hlen : (toLE 4 L ++ (toLE 4 w2 ++ (toLE 4 3 ++ body))).length = 12 + body.length := by
    simp [toLE_length]
    omega
  have h1 : (toLE 4 L ++ (toLE 4 w2 ++ (toLE 4 3 ++ body))).take 4 = toLE 4 L :=
    List.take_left' (toLE_length 4 L)
  have h2 : (toLE 4 L ++ (toLE 4 w2 ++ (toLE 4 3 ++ body))).drop 4 =
      toLE 4 w2 ++ (toLE 4 3 ++ body) := List.drop_left' (toLE_length 4 L)
  have h3 : (toLE 4 L ++ (toLE 4 w2 ++ (toLE 4 3 ++ body))).drop 8 =
      toLE 4 3 ++ body := by
    rw [show (8 : ℕ) = (toLE 4 L).length + 4 from by rw [toLE_length], List.drop_append]
    exact List.drop_left' (toLE_length 4 w2)
  have h4 : (toLE 4 L ++ (toLE 4 w2 ++ (toLE 4 3 ++ body))).drop 12 = body := by
    rw [show (12 : ℕ) = (toLE 4 L).length + 8 from by rw [toLE_length], List.drop_append,
      show (8 : ℕ) = (toLE 4 w2).length + 4 from by rw [toLE_length], List.drop_append]
    exact List.drop_left' (toLE_length 4 3)
  have hf1 : fromLE (toLE 4 L) = L := by
    rw [fromLE_toLE, h232, Nat.mod_eq_of_lt hL]
  have hf2 : fromLE (toLE 4 w2) = w2 := by
    rw [fromLE_toLE, h232, Nat.mod_eq_of_lt hw2]
  have hf3 : fromLE (toLE 4 3) = 3 := by
    rw [fromLE_toLE, h232, Nat.mod_eq_of_lt (by norm_num)]
  unfold process_numpy_data
  rw [if_neg (by omega)]
  dsimp only
  rw [h1, h2, h3, h4, List.take_left' (toLE_length 4 w2), List.take_left' (toLE_length 4 3),
    hf1, hf2, hf3]
  rcases hbody with ⟨hbl, hbe⟩ | ⟨hbl, hbe⟩
  · rw [if_pos hbl, hbe]
    exact hre
  · rw [if_neg hbl, hbe]
    exact hre

/-- C8: decoding the `NUMPY` payload emitted by `send_screenshot_numpy`
— parse the little-endian `u32 height, width, channels` header,
decompress the body exactly when its length differs from `h·w·c`, and
reshape — reconstructs exactly the RGB array the encoder serialized:
alpha dropped, BGR reordered to RGB, rows and columns decimated by
`max(1, int(1/scale))` when `scale < 1`. `comp`/`decomp` stand for
`zlib.compress`/`zlib.decompress`; the hypotheses state the codec
round-trip and the length discrimination the decoder relies on. -/
theorem C8_numpy_roundtrip (comp decomp : List ℕ → List ℕ) (img : Img3)
    (h w : ℕ) (scale fps_target : ℚ)
    (hwf : wf3 img h w 4) (hh : 0 < h) (hw : 0 < w)
    (h32 : h < 2 ^ 32) (w32 : w < 2 ^ 32)
    (hcomp : decomp (comp (flatten3 (rgbTransform img scale))) =
      flatten3 (rgbTransform img scale))
    (hclen : (comp (flatten3 (rgbTransform img scale))).length ≠
      (flatten3 (rgbTransform img scale)).length) :
    process_numpy_data decomp ((send_screenshot_numpy comp img scale fps_target).drop 5) =
      some (rgbTransform img scale) := by
  obtain ⟨w2, hu, hposh, hlth, hposw, hltw⟩ :
      ∃ w2, (∀ r ∈ rgbTransform img scale, r.length = w2 ∧ ∀ px ∈ r, px.length = 3) ∧
        0 < (rgbTransform img scale).length ∧ (rgbTransform img scale).length < 2 ^ 32 ∧
        0 < w2 ∧ w2 < 2 ^ 32 := by
    have hblen : (bgraToRgb img).length = h := by
      rw [bgraToRgb, List.length_map, hwf.1]
    unfold rgbTransform
    dsimp only
    by_cases hsc : scale < 1
    · rw [if_pos hsc]
      have hs1 : 0 < max 1 (Int.toNat ⌊1 / scale⌋) := by
        have := le_max_left 1 (Int.toNat ⌊1 / scale⌋)
        omega
      refine ⟨(w + max 1 (Int.toNat ⌊1 / scale⌋) - 1) / max 1 (Int.toNat ⌊1 / scale⌋),
        ?_, ?_, ?_, ?_, ?_⟩
      · intro r hr
        obtain ⟨r0, hr0, rfl⟩ := List.mem_map.mp hr
        have hr0mem : r0 ∈ bgraToRgb img := sliceStep_subset _ _ r0 hr0
        have hrow := bgraToRgb_rows img h w 4 hwf r0 hr0mem
        refine ⟨?_, ?_⟩
        · rw [sliceStep_length, hrow.1]
        · intro px hpx
          exact hrow.2 px (sliceStep_subset _ r0 px hpx)
      · rw [List.length_map, sliceStep_length, hblen]
        exact ceilDiv_pos h _ hh hs1
      · rw [List.length_map, sliceStep_length, hblen]
        exact lt_of_le_of_lt (ceilDiv_le h _ hs1) h32
      · exact ceilDiv_pos w _ hw hs1
      · exact lt_of_le_of_lt (ceilDiv_le w _ hs1) w32
    · rw [if_neg hsc]
      refine ⟨w, bgraToRgb_rows img h w 4 hwf, ?_, ?_, hw, w32⟩
      · rw [hblen]; exact hh
      · rw [hblen]; exact h32
  have hne : rgbTransform img scale ≠ [] := by
    intro h0
    rw [h0] at hposh
    simp at hposh
  have hwD : ((rgbTransform img scale).headD []).length = w2 := by
    obtain ⟨r0, rs, hcons⟩ := List.exists_cons_of_ne_nil hne
    rw [hcons, List.headD_cons]
    exact (hu r0 (by rw [hcons]; exact List.mem_cons_self r0 rs)).1
  have hcD : (((rgbTransform img scale).headD []).headD []).length = 3 := by
    obtain ⟨r0, rs, hcons⟩ := List.exists_cons_of_ne_nil hne
    have h0 := hu r0 (by rw [hcons]; exact List.mem_cons_self r0 rs)
    have hr0ne : r0 ≠ [] := by
      intro hr0
      rw [hr0] at h0
      simp at h0
      omega
    obtain ⟨px0, pxs, hcons2⟩ := List.exists_cons_of_ne_nil hr0ne
    rw [hcons, List.headD_cons, hcons2, List.headD_cons]
    exact h0.2 px0 (by rw [hcons2]; exact List.mem_cons_self px0 pxs)
  have huwf : wf3 (rgbTransform img scale) (rgbTransform img scale).length w2 3 := ⟨rfl, hu⟩
  have hre : reshape3 (rgbTransform img scale).length w2 3
      (flatten3 (rgbTransform img scale)) = some (rgbTransform img scale) :=
    reshape3_flatten3 _ _ _ _ huwf hposw (by omega)
  have hflen : (flatten3 (rgbTransform img scale)).length =
      (rgbTransform img scale).length * w2 * 3 := flatten3_length _ _ _ _ huwf
  unfold send_screenshot_numpy
  dsimp only
  rw [hwD, hcD]
  by_cases hfps : fps_target > 120
  · rw [if_pos hfps]
    have hdrop : ((NUMPY_TAG ++
        (toLE 4 (rgbTransform img scale).length ++ toLE 4 w2 ++ toLE 4 3) ++
        flatten3 (rgbTransform img scale))).drop 5 =
        toLE 4 (rgbTransform img scale).length ++
          (toLE 4 w2 ++ (toLE 4 3 ++ flatten3 (rgbTransform img scale))) := by
      simp only [List.append_assoc]
      exact List.drop_left' (show NUMPY_TAG.length = 5 from rfl)
    rw [hdrop]
    exact process_numpy_header decomp _ _ _ _ hlth hltw (Or.inl ⟨hflen, rfl⟩) hre
  · rw [if_neg hfps]
    have hdrop : ((NUMPY_TAG ++
        (toLE 4 (rgbTransform img scale).length ++ toLE 4 w2 ++ toLE 4 3) ++
        comp (flatten3 (rgbTransform img scale)))).drop 5 =
        toLE 4 (rgbTransform img scale).length ++
          (toLE 4 w2 ++ (toLE 4 3 ++ comp (flatten3 (rgbTransform img scale)))) := by
      simp only [List.append_assoc]
      exact List.drop_left' (show NUMPY_TAG.length = 5 from rfl)
    rw [hdrop]
    refine process_numpy_header decomp _ _ _ _ hlth hltw (Or.inr ⟨?_, hcomp⟩) hre
    rw [← hflen]
    exact hclen

/-- Witness for C8: a 1×2 BGRA frame, scale 1, fps target 60 (deflate
path), with a concrete injective stand-in codec (prepend a byte /
drop it). -/
theorem C8_numpy_roundtrip_witness :
    wf3 [[[1, 2, 3, 4], [5, 6, 7, 8]]] 1 2 4 ∧
    process_numpy_data (fun l => l.drop 1)
        ((send_screenshot_numpy (fun l => 7 :: l)
          [[[1, 2, 3, 4], [5, 6, 7, 8]]] 1 60).drop 5) =
      some (rgbTransform [[[1, 2, 3, 4], [5, 6, 7, 8]]] 1) :=
  ⟨by unfold wf3; decide,
   C8_numpy_roundtrip (fun l => 7 :: l) (fun l => l.drop 1)
     [[[1, 2, 3, 4], [5, 6, 7, 8]]] 1 2 1 60
     (by unfold wf3; decide) (by decide) (by decide) (by decide) (by decide)
     rfl (by simp)⟩

end RemoteDesktop
